import Mathlib

/-!
Shallow embedding of the lattice-Boltzmann solver (lattice-boltzmann-rs).

`src/lib.rs` defines `type Float = f32`.  In the numerical model
(`src/lattice.rs`) every operation is +, -, *, / on `Float`, so the
module is embedded over the exact rationals `ℚ`: each Rust float literal
is read as the exact rational it denotes, and the theorems are the
exact-arithmetic statements of the spec.
-/

namespace LBM

/-- Embedding of `Float = f32` for the lattice module: exact rationals. -/
abbrev Float := ℚ

namespace D3Q27

/-- `D3Q27::Q`: number of discrete velocities. -/
def Q : ℕ := 27

/-- `D3Q27::VELOCITIES`: the 27 discrete velocities, in source order
(center, 6 face neighbors, 12 edge neighbors, 8 corner neighbors). -/
def VELOCITIES : Fin 27 → Fin 3 → ℤ :=
  ![ -- Center
    ![0, 0, 0],
    -- Face neighbors (6)
    ![1, 0, 0], ![-1, 0, 0], ![0, 1, 0], ![0, -1, 0], ![0, 0, 1], ![0, 0, -1],
    -- Edge neighbors (12)
    ![1, 1, 0], ![1, -1, 0], ![-1, 1, 0], ![-1, -1, 0],
    ![1, 0, 1], ![1, 0, -1], ![-1, 0, 1], ![-1, 0, -1],
    ![0, 1, 1], ![0, 1, -1], ![0, -1, 1], ![0, -1, -1],
    -- Corner neighbors (8)
    ![1, 1, 1], ![1, 1, -1], ![1, -1, 1], ![1, -1, -1],
    ![-1, 1, 1], ![-1, 1, -1], ![-1, -1, 1], ![-1, -1, -1]]

/-- `D3Q27::WEIGHTS`: the 27 lattice weights, in source order. -/
def WEIGHTS : Fin 27 → Float :=
  ![ -- Center
    8/27,
    -- Face neighbors (6)
    2/27, 2/27, 2/27, 2/27, 2/27, 2/27,
    -- Edge neighbors (12)
    1/54, 1/54, 1/54, 1/54,
    1/54, 1/54, 1/54, 1/54,
    1/54, 1/54, 1/54, 1/54,
    -- Corner neighbors (8)
    1/216, 1/216, 1/216, 1/216,
    1/216, 1/216, 1/216, 1/216]

/-- `D3Q27::OPPOSITE`: the table the source uses for bounce-back,
copied entry by entry. -/
def OPPOSITE : Fin 27 → Fin 27 :=
  ![0,  -- Center stays the same
    2, 1, 4, 3, 6, 5,  -- Face opposites
    9, 8, 7, 10, 13, 12, 11, 14, 17, 16, 15, 18,  -- Edge opposites
    26, 25, 24, 23, 22, 21, 20, 19]  -- Corner opposites

/-- `D3Q27::CS2`: lattice speed of sound squared, `1.0 / 3.0`. -/
def CS2 : Float := 1 / 3

end D3Q27

/-- `LatticePoint` (src/lattice.rs): distribution functions, macroscopic
density and velocity, and the node-type tag.  The `_padding` field is
GPU-alignment only and carries no information, so it is omitted. -/
structure LatticePoint where
  f : Fin 27 → Float
  density : Float
  velocity : Fin 3 → Float
  node_type : ℕ
deriving DecidableEq

namespace LatticePoint

/-- `LatticePoint::equilibrium_distribution`. -/
def equilibrium_distribution (direction : Fin 27) (density : Float)
    (velocity : Fin 3 → Float) : Float :=
  let weight := D3Q27.WEIGHTS direction
  let c := D3Q27.VELOCITIES direction
  -- Dot product of velocity and lattice velocity
  let cu := (c 0 : Float) * velocity 0 + (c 1 : Float) * velocity 1 +
            (c 2 : Float) * velocity 2
  -- Velocity magnitude squared
  let u2 := velocity 0 * velocity 0 + velocity 1 * velocity 1 +
            velocity 2 * velocity 2
  weight * density * (1 + cu / D3Q27.CS2 +
                      cu * cu / (2 * D3Q27.CS2 * D3Q27.CS2) -
                      u2 / (2 * D3Q27.CS2))

/-- `LatticePoint::new_equilibrium`: a point whose 27 distributions are
the equilibrium distributions at the given density and velocity. -/
def new_equilibrium (density : Float) (velocity : Fin 3 → Float)
    (node_type : ℕ) : LatticePoint :=
  { f := fun i => equilibrium_distribution i density velocity
    density := density
    velocity := velocity
    node_type := node_type }

/-- `LatticePoint::calculate_macroscopic`: density is the sum of the 27
distributions; velocity is accumulated as the first moment `Σ f_i·c_i`
and divided by the density only under the guard `density > 1e-10`. -/
def calculate_macroscopic (p : LatticePoint) : LatticePoint :=
  -- Density: `self.f.iter().sum()`
  let density := ∑ i, p.f i
  -- Velocity accumulation loop: component d collects Σ_i f_i * c_i[d]
  let moment : Fin 3 → Float := fun d => ∑ i, p.f i * (D3Q27.VELOCITIES i d : Float)
  -- `if self.density > 1e-10 { divide each component by density }`
  let velocity := if density > (1e-10 : Float) then
      (fun d => moment d / density) else moment
  { p with density := density, velocity := velocity }

/-- `LatticePoint::collide`: BGK relaxation with `omega = 1.0 / tau`. -/
def collide (p : LatticePoint) (tau : Float) : LatticePoint :=
  let omega := 1 / tau
  { p with
    f := fun i =>
      p.f i + omega * (equilibrium_distribution i p.density p.velocity - p.f i) }

end LatticePoint

-- The 27 equilibrium distributions sum exactly to the density: shared
-- moment identity used by several theorems below.
set_option maxHeartbeats 2000000 in
lemma sum_equilibrium (ρ : Float) (u : Fin 3 → Float) :
    ∑ i, LatticePoint.equilibrium_distribution i ρ u = ρ := by
  simp only [LatticePoint.equilibrium_distribution, D3Q27.WEIGHTS, D3Q27.VELOCITIES,
    D3Q27.CS2, Fin.sum_univ_succ, Finset.univ_unique, Fin.default_eq_zero,
    Finset.sum_singleton, Matrix.cons_val_zero, Matrix.cons_val_one, Matrix.head_cons,
    Matrix.cons_val_two, Matrix.tail_cons, Matrix.cons_val_succ, Fin.succ_zero_eq_one]
  push_cast
  ring

/-- A lattice point whose only nonzero distribution is `1e-11` in
direction 1 (velocity `[1,0,0]`): its distribution sum is below the
`1e-10` guard while its first moment is nonzero. -/
def pTiny : LatticePoint :=
  { f := ![0, 1e-11, 0, 0, 0, 0, 0, 0, 0, 0, 0, 0, 0,
           0, 0, 0, 0, 0, 0, 0, 0, 0, 0, 0, 0, 0, 0]
    density := 1
    velocity := ![0, 0, 0]
    node_type := 0 }

/-- C1: the claim that `VELOCITIES[OPPOSITE[i]]` is the componentwise
negation of `VELOCITIES[i]` for every direction `i` is false for the
table in the source: the twelve edge entries are wrong (e.g.
`OPPOSITE[7] = 9`, but `VELOCITIES[9] = [-1,1,0]` while
`-VELOCITIES[7] = [-1,-1,0]`; `OPPOSITE[8] = 8` and `OPPOSITE[10] = 10`
are even fixed points). -/
theorem opposite_table_is_not_geometric_opposite :
    ¬ (∀ i : Fin 27, ∀ d : Fin 3,
        D3Q27.VELOCITIES (D3Q27.OPPOSITE i) d = - D3Q27.VELOCITIES i d) := by
  decide

/-- C2 counterexample: `calculate_macroscopic` does NOT zero the
velocity when the density is below `1e-10`; on `pTiny` the resulting
density is `1e-11 < 1e-10` but the velocity is the unnormalized first
moment `[1e-11, 0, 0] ≠ 0`. -/
theorem calculate_macroscopic_zeroing_claim_false :
    ¬ (∀ p : LatticePoint,
        p.calculate_macroscopic.density = (∑ i, p.f i) ∧
        (p.calculate_macroscopic.density < 1e-10 →
          p.calculate_macroscopic.velocity = fun _ => 0) ∧
        (¬ p.calculate_macroscopic.density < 1e-10 →
          p.calculate_macroscopic.velocity = fun d =>
            (∑ i, p.f i * (D3Q27.VELOCITIES i d : Float)) /
              p.calculate_macroscopic.density)) := by
  intro h
  have h2 := (h pTiny).2.1
  have hd : pTiny.calculate_macroscopic.density < 1e-10 := by
    simp only [LatticePoint.calculate_macroscopic, pTiny, Fin.sum_univ_succ,
      Finset.univ_unique, Finset.sum_singleton, Fin.default_eq_zero,
      Matrix.cons_val_zero, Matrix.cons_val_one, Matrix.head_cons,
      Matrix.cons_val_two, Matrix.tail_cons, Matrix.cons_val_succ]
    norm_num
  have hv := congrFun (h2 hd) 0
  revert hv
  simp only [LatticePoint.calculate_macroscopic, pTiny, D3Q27.VELOCITIES,
    Fin.sum_univ_succ, Finset.univ_unique, Finset.sum_singleton, Fin.default_eq_zero,
    Matrix.cons_val_zero, Matrix.cons_val_one, Matrix.head_cons,
    Matrix.cons_val_two, Matrix.tail_cons, Matrix.cons_val_succ]
  norm_num

/-- C2 (amended): after `calculate_macroscopic` the density equals the
sum of the 27 distributions; the velocity equals the first moment
`Σ f_i·c_i` divided by that density when the density exceeds `1e-10`,
and is left as the UNNORMALIZED first moment (not zeroed) when the
density is at most `1e-10`. -/
theorem calculate_macroscopic_moments (p : LatticePoint) :
    p.calculate_macroscopic.density = (∑ i, p.f i) ∧
    (p.calculate_macroscopic.density > 1e-10 →
      p.calculate_macroscopic.velocity = fun d =>
        (∑ i, p.f i * (D3Q27.VELOCITIES i d : Float)) /
          p.calculate_macroscopic.density) ∧
    (p.calculate_macroscopic.density ≤ 1e-10 →
      p.calculate_macroscopic.velocity = fun d =>
        ∑ i, p.f i * (D3Q27.VELOCITIES i d : Float)) := by
  refine ⟨rfl, fun hgt => ?_, fun hle => ?_⟩
  · simp only [LatticePoint.calculate_macroscopic] at hgt ⊢
    rw [if_pos hgt]
  · simp only [LatticePoint.calculate_macroscopic] at hle ⊢
    rw [if_neg (not_lt.mpr hle)]

/-- C2 witness: the amended low-density branch instantiated at `pTiny`. -/
theorem calculate_macroscopic_moments_witness :
    pTiny.calculate_macroscopic.density ≤ 1e-10 ∧
    pTiny.calculate_macroscopic.velocity = fun d =>
      ∑ i, pTiny.f i * (D3Q27.VELOCITIES i d : Float) := by
  have hle : pTiny.calculate_macroscopic.density ≤ 1e-10 := by
    simp only [LatticePoint.calculate_macroscopic, pTiny, Fin.sum_univ_succ,
      Finset.univ_unique, Finset.sum_singleton, Fin.default_eq_zero,
      Matrix.cons_val_zero, Matrix.cons_val_one, Matrix.head_cons,
      Matrix.cons_val_two, Matrix.tail_cons, Matrix.cons_val_succ]
    norm_num
  exact ⟨hle, (calculate_macroscopic_moments pTiny).2.2 hle⟩

/-- C3: for every density `ρ` and every velocity `u`, the 27
equilibrium distributions sum exactly to `ρ`. -/
theorem equilibrium_distributions_sum_to_density (ρ : Float) (u : Fin 3 → Float) :
    ∑ i, LatticePoint.equilibrium_distribution i ρ u = ρ :=
  sum_equilibrium ρ u

/-- C4: the invariant `density = Σ f_i` is established by
`new_equilibrium` (any density, velocity, node type) and by
`calculate_macroscopic`, and is preserved by `collide` for every
relaxation time `tau`. -/
theorem density_sum_invariant :
    (∀ (ρ : Float) (u : Fin 3 → Float) (nt : ℕ),
      (LatticePoint.new_equilibrium ρ u nt).density =
        ∑ i, (LatticePoint.new_equilibrium ρ u nt).f i) ∧
    (∀ p : LatticePoint,
      p.calculate_macroscopic.density = ∑ i, p.calculate_macroscopic.f i) ∧
    (∀ (p : LatticePoint) (tau : Float), p.density = (∑ i, p.f i) →
      (p.collide tau).density = ∑ i, (p.collide tau).f i) := by
  refine ⟨fun ρ u nt => ?_, fun p => rfl, fun p tau h => ?_⟩
  · exact (sum_equilibrium ρ u).symm
  · have : ∑ i, (p.collide tau).f i = ∑ i, p.f i := by
      simp only [LatticePoint.collide, Finset.sum_add_distrib, ← Finset.mul_sum,
        Finset.sum_sub_distrib, sum_equilibrium, ← h]
      ring
    rw [this, ← h]
    rfl

/-- Concrete point for the C4 witness: one unit of mass in the rest
direction, consistent density. -/
def pMass : LatticePoint :=
  { f := ![1, 0, 0, 0, 0, 0, 0, 0, 0, 0, 0, 0, 0,
           0, 0, 0, 0, 0, 0, 0, 0, 0, 0, 0, 0, 0, 0]
    density := 1
    velocity := ![0, 0, 0]
    node_type := 0 }

/-- C4 witness: the collision part of the invariant at `pMass`, `tau = 1`. -/
theorem density_sum_invariant_witness :
    (pMass.density = ∑ i, pMass.f i) ∧
    ((pMass.collide 1).density = ∑ i, (pMass.collide 1).f i) := by
  have h : pMass.density = ∑ i, pMass.f i := by
    simp only [pMass, Fin.sum_univ_succ, Finset.univ_unique, Finset.sum_singleton,
      Fin.default_eq_zero, Matrix.cons_val_zero, Matrix.cons_val_one, Matrix.head_cons,
      Matrix.cons_val_two, Matrix.tail_cons, Matrix.cons_val_succ]
    norm_num
  exact ⟨h, density_sum_invariant.2.2 pMass 1 h⟩

/-- C5: if all 27 distributions of a point equal the equilibrium
distributions at its stored density and velocity, `collide` leaves the
distribution array unchanged, for every `tau`. -/
theorem collide_fixes_equilibrium (p : LatticePoint) (tau : Float)
    (h : ∀ i, p.f i = LatticePoint.equilibrium_distribution i p.density p.velocity) :
    (p.collide tau).f = p.f := by
  funext i
  simp [LatticePoint.collide, ← h i]

/-- Concrete equilibrium point for the C5 witness. -/
def pEquil : LatticePoint :=
  LatticePoint.new_equilibrium 1 ![1/10, 0, 0] 0

/-- C5 witness: collision at `pEquil` with `tau = 3/5` is the identity
on the distributions; the equilibrium hypothesis holds definitionally. -/
theorem collide_fixes_equilibrium_witness :
    (pEquil.collide (3/5)).f = pEquil.f :=
  collide_fixes_equilibrium pEquil (3/5) (fun _ => rfl)

/-- C10: `collide` changes only the distribution array: the density,
velocity and node type of the result are those of the input, for every
point and every `tau`. -/
theorem collide_frame (p : LatticePoint) (tau : Float) :
    (p.collide tau).density = p.density ∧
    (p.collide tau).velocity = p.velocity ∧
    (p.collide tau).node_type = p.node_type :=
  ⟨rfl, rfl, rfl⟩

/-!
Geometry module (src/geometry.rs).  Here the arithmetic includes square
roots (`nalgebra` magnitudes and normalization), so `f32` is embedded
as a real number; division and `normalize` of the zero vector follow
Lean's total-division convention `x / 0 = 0`.
-/

/-- `nalgebra::Point3<f32>` / its difference vectors. -/
structure Point3 where
  x : ℝ
  y : ℝ
  z : ℝ

namespace Point3

/-- Componentwise difference (`b - a` on points/vectors). -/
def sub (a b : Point3) : Point3 := ⟨a.x - b.x, a.y - b.y, a.z - b.z⟩

/-- Componentwise sum (`a + v`). -/
def add (a b : Point3) : Point3 := ⟨a.x + b.x, a.y + b.y, a.z + b.z⟩

/-- Scalar multiple (`v * t`). -/
def smul (a : Point3) (t : ℝ) : Point3 := ⟨a.x * t, a.y * t, a.z * t⟩

/-- `nalgebra` dot product. -/
def dot (a b : Point3) : ℝ := a.x * b.x + a.y * b.y + a.z * b.z

/-- `nalgebra` cross product. -/
def cross (a b : Point3) : Point3 :=
  ⟨a.y * b.z - a.z * b.y, a.z * b.x - a.x * b.z, a.x * b.y - a.y * b.x⟩

/-- `nalgebra` magnitude: `sqrt (v · v)`. -/
noncomputable def magnitude (a : Point3) : ℝ := Real.sqrt (a.dot a)

/-- `nalgebra` normalize: `v / |v|` componentwise. -/
noncomputable def normalize (a : Point3) : Point3 :=
  ⟨a.x / a.magnitude, a.y / a.magnitude, a.z / a.magnitude⟩

end Point3

/-- `DomainConfig` (src/config.rs): grid extents and spacing. -/
structure DomainConfig where
  nx : ℕ
  ny : ℕ
  nz : ℕ
  dx : ℝ
  dy : ℝ
  dz : ℝ

/-- `Geometry` (src/geometry.rs): the five per-cell classification
sets, `HashSet<(usize,usize,usize)>` embedded as finite sets of index
triples. -/
structure Geometry where
  solid_nodes : Finset (ℕ × ℕ × ℕ)
  boundary_nodes : Finset (ℕ × ℕ × ℕ)
  fluid_nodes : Finset (ℕ × ℕ × ℕ)
  inlet_nodes : Finset (ℕ × ℕ × ℕ)
  outlet_nodes : Finset (ℕ × ℕ × ℕ)
deriving DecidableEq

namespace Geometry

open Classical in
/-- `Geometry::point_line_segment_distance`. -/
noncomputable def point_line_segment_distance (point a b : Point3) : ℝ :=
  let ab := b.sub a
  let ap := point.sub a
  let ab_len_sq := ab.dot ab
  if ab_len_sq = 0 then ap.magnitude
  else
    let t := min (max (ap.dot ab / ab_len_sq) 0) 1  -- `.clamp(0.0, 1.0)`
    let projection := a.add (ab.smul t)
    (point.sub projection).magnitude

/-- The barycentric denominator `dot00 * dot11 - dot01 * dot01` whose
reciprocal `point_triangle_distance` takes; it is zero exactly for
degenerate (zero-area) triangles. -/
def baryDenom (triangle : Fin 3 → Point3) : ℝ :=
  let v0 := (triangle 1).sub (triangle 0)
  let v1 := (triangle 2).sub (triangle 0)
  (v0.dot v0) * (v1.dot v1) - (v0.dot v1) * (v0.dot v1)

open Classical in
/-- `Geometry::point_triangle_distance`.  The source computes
`inv_denom = 1.0 / (dot00 * dot11 - dot01 * dot01)` with no degeneracy
check; the division is embedded with Lean's total division. -/
noncomputable def point_triangle_distance (point : Point3)
    (triangle : Fin 3 → Point3) : ℝ :=
  let v0 := (triangle 1).sub (triangle 0)
  let v1 := (triangle 2).sub (triangle 0)
  let v2 := point.sub (triangle 0)
  let dot00 := v0.dot v0
  let dot01 := v0.dot v1
  let dot02 := v0.dot v2
  let dot11 := v1.dot v1
  let dot12 := v1.dot v2
  -- `1.0 / (dot00 * dot11 - dot01 * dot01)`; the denominator is
  -- definitionally `baryDenom triangle`
  let inv_denom := 1 / baryDenom triangle
  let u := (dot11 * dot02 - dot01 * dot12) * inv_denom
  let v := (dot00 * dot12 - dot01 * dot02) * inv_denom
  if 0 ≤ u ∧ 0 ≤ v ∧ u + v ≤ 1 then
    -- Point projects inside the triangle: distance to its plane
    |v2.dot ((v0.cross v1).normalize)|
  else
    -- Otherwise: distance to the closest edge
    let d1 := point_line_segment_distance point (triangle 0) (triangle 1)
    let d2 := point_line_segment_distance point (triangle 1) (triangle 2)
    let d3 := point_line_segment_distance point (triangle 2) (triangle 0)
    min (min d1 d2) d3

/-- `Geometry::point_inside_triangle_volume`: within `0.8` of the
smallest spacing of the triangle surface. -/
noncomputable def point_inside_triangle_volume (point : Point3)
    (triangle : Fin 3 → Point3) (domain : DomainConfig) : Prop :=
  point_triangle_distance point triangle < min (min domain.dx domain.dy) domain.dz * 0.8

/-- Bounding-box index conversion of `voxelize_triangle`:
`((v).floor as i32).max(0).min(n as i32 - 1) as usize` (and the same
with `ceil`); the final cast is total because the value was clamped
into `[0, n-1]`. -/
def clampIdx (v : ℤ) (n : ℕ) : ℕ := (min (max v 0) ((n : ℤ) - 1)).toNat

/-- One supersample position inside cell `(i,j,k)`:
`((i as f32 + (s as f32 + 0.5) / 3) * d)` per axis. -/
noncomputable def samplePoint (domain : DomainConfig) (i j k si sj sk : ℕ) : Point3 :=
  ⟨((i : ℝ) + ((si : ℝ) + 0.5) / 3) * domain.dx,
   ((j : ℝ) + ((sj : ℝ) + 0.5) / 3) * domain.dy,
   ((k : ℝ) + ((sk : ℝ) + 0.5) / 3) * domain.dz⟩

open Classical in
/-- The number of the 3×3×3 supersamples of cell `(i,j,k)` that pass
`point_inside_triangle_volume` (the `inside_count` accumulator). -/
noncomputable def countInside (triangle : Fin 3 → Point3) (domain : DomainConfig)
    (i j k : ℕ) : ℕ :=
  ((Finset.range 3 ×ˢ Finset.range 3 ×ˢ Finset.range 3).filter
    (fun s => point_inside_triangle_volume
      (samplePoint domain i j k s.1 s.2.1 s.2.2) triangle domain)).card

/-- The cells of the clamped bounding box of a triangle
(`i_min..=i_max` × `j_min..=j_max` × `k_min..=k_max`). -/
noncomputable def bboxCells (triangle : Fin 3 → Point3) (domain : DomainConfig) :
    Finset (ℕ × ℕ × ℕ) :=
  let min_x := min (min (triangle 0).x (triangle 1).x) (triangle 2).x
  let max_x := max (max (triangle 0).x (triangle 1).x) (triangle 2).x
  let min_y := min (min (triangle 0).y (triangle 1).y) (triangle 2).y
  let max_y := max (max (triangle 0).y (triangle 1).y) (triangle 2).y
  let min_z := min (min (triangle 0).z (triangle 1).z) (triangle 2).z
  let max_z := max (max (triangle 0).z (triangle 1).z) (triangle 2).z
  Finset.Icc (clampIdx ⌊min_x / domain.dx⌋ domain.nx)
      (clampIdx ⌈max_x / domain.dx⌉ domain.nx) ×ˢ
    Finset.Icc (clampIdx ⌊min_y / domain.dy⌋ domain.ny)
      (clampIdx ⌈max_y / domain.dy⌉ domain.ny) ×ˢ
    Finset.Icc (clampIdx ⌊min_z / domain.dz⌋ domain.nz)
      (clampIdx ⌈max_z / domain.dz⌉ domain.nz)

open Classical in
/-- The in-bounds 26-neighborhood a newly marked solid cell adds to
`boundary_nodes`. -/
noncomputable def neighborCells (domain : DomainConfig) (c : ℕ × ℕ × ℕ) :
    Finset (ℕ × ℕ × ℕ) :=
  ((Finset.Icc (-1 : ℤ) 1 ×ˢ Finset.Icc (-1 : ℤ) 1 ×ˢ Finset.Icc (-1 : ℤ) 1).filter
    (fun o => ¬(o.1 = 0 ∧ o.2.1 = 0 ∧ o.2.2 = 0) ∧
      0 ≤ (c.1 : ℤ) + o.1 ∧ (c.1 : ℤ) + o.1 < domain.nx ∧
      0 ≤ (c.2.1 : ℤ) + o.2.1 ∧ (c.2.1 : ℤ) + o.2.1 < domain.ny ∧
      0 ≤ (c.2.2 : ℤ) + o.2.2 ∧ (c.2.2 : ℤ) + o.2.2 < domain.nz)).image
    (fun o => (((c.1 : ℤ) + o.1).toNat, ((c.2.1 : ℤ) + o.2.1).toNat,
               ((c.2.2 : ℤ) + o.2.2).toNat))

open Classical in
/-- `Geometry::voxelize_triangle`: every bounding-box cell for which a
strict majority (`> 27 / 2`) of the 3×3×3 supersamples is inside gets
inserted into `solid_nodes`, and its in-bounds neighbors into
`boundary_nodes`.  There is no degeneracy check: every triangle is
processed. -/
noncomputable def voxelize_triangle (vertices : Fin 3 → Point3)
    (domain : DomainConfig)
    (solid_nodes boundary_nodes : Finset (ℕ × ℕ × ℕ)) :
    Finset (ℕ × ℕ × ℕ) × Finset (ℕ × ℕ × ℕ) :=
  let samples_per_axis : ℕ := 3
  let total_samples := samples_per_axis * samples_per_axis * samples_per_axis
  let marked := (bboxCells vertices domain).filter
    (fun c => countInside vertices domain c.1 c.2.1 c.2.2 > total_samples / 2)
  (solid_nodes ∪ marked, boundary_nodes ∪ marked.biUnion (neighborCells domain))

/-- The nodes of the constant-`x` grid plane, as traversed by the
inlet/outlet loops (`j in 0..ny`, `k in 0..nz`). -/
def xPlane (x : ℕ) (domain : DomainConfig) : Finset (ℕ × ℕ × ℕ) :=
  {x} ×ˢ Finset.range domain.ny ×ˢ Finset.range domain.nz

open Classical in
/-- `Geometry::from_stl`.  Opening and parsing the STL file are
external (`std::fs::File::open`, `stl_io::read_stl`); their outcome is
the `parsed` argument, and by the `?` operator an error is returned
unchanged.  On success the faces are voxelized in order, fluid is the
complement of solid over the grid, and the two boundary planes are then
forced: every `(0,j,k)` is removed from solid and added to fluid and
inlet, every `(nx-1,j,k)` is removed from solid and added to fluid and
outlet. -/
noncomputable def from_stl (parsed : Except String (List (Fin 3 → Point3)))
    (domain : DomainConfig) : Except String Geometry :=
  match parsed with
  | .error e => .error e
  | .ok faces =>
    let sb := faces.foldl
      (fun sb tri => voxelize_triangle tri domain sb.1 sb.2) (∅, ∅)
    -- Generate fluid nodes (all nodes not solid)
    let fluid0 := ((Finset.range domain.nx ×ˢ Finset.range domain.ny ×ˢ
      Finset.range domain.nz).filter (fun c => c ∉ sb.1))
    -- Inlet at x=0 plane: remove from solid, ensure fluid, add to inlet
    let solid1 := sb.1 \ xPlane 0 domain
    let fluid1 := fluid0 ∪ xPlane 0 domain
    -- Outlet at x=nx-1 plane: remove from solid, ensure fluid, add to outlet
    let solid2 := solid1 \ xPlane (domain.nx - 1) domain
    let fluid2 := fluid1 ∪ xPlane (domain.nx - 1) domain
    .ok { solid_nodes := solid2
          boundary_nodes := sb.2
          fluid_nodes := fluid2
          inlet_nodes := xPlane 0 domain
          outlet_nodes := xPlane (domain.nx - 1) domain }

/-- Concrete 2×1×1 domain used as instantiation input. -/
def d6 : DomainConfig := ⟨2, 1, 1, 1, 1, 1⟩

/-- The classification `from_stl` produces on `d6` for an empty
triangle list: no solid, both cells fluid, inlet `(0,0,0)`, outlet
`(1,0,0)`. -/
def g6 : Geometry :=
  { solid_nodes := ∅
    boundary_nodes := ∅
    fluid_nodes := {(0,0,0), (1,0,0)}
    inlet_nodes := {(0,0,0)}
    outlet_nodes := {(1,0,0)} }

/-- A degenerate (zero-area) triangle: three collinear vertices on the
segment `y = z = 3/2`, `x ∈ [1/2, 5/2]`. -/
noncomputable def Tdeg : Fin 3 → Point3 :=
  ![⟨1/2, 3/2, 3/2⟩, ⟨3/2, 3/2, 3/2⟩, ⟨5/2, 3/2, 3/2⟩]

/-- Concrete 3×3×3 unit-spacing domain for voxelizing `Tdeg`. -/
def d8 : DomainConfig := ⟨3, 3, 3, 1, 1, 1⟩

/-- On `Tdeg` the barycentric branch of `point_triangle_distance`
degenerates: the denominator is zero, so with total division `u = v = 0`
and the in-triangle branch measures against the normalized zero normal,
giving distance `0` for every query point.  (In `f32` the same inputs
give `inv_denom = ∞`, `u = NaN`, and the edge-distance branch, which is
also below the thickness threshold for the cells along the segment: the
triangle is processed and marks cells either way.) -/
lemma point_triangle_distance_Tdeg (p : Point3) :
    Geometry.point_triangle_distance p Tdeg = 0 := by
  simp only [Geometry.point_triangle_distance, Geometry.baryDenom, Tdeg,
    Point3.sub, Point3.dot, Point3.cross, Point3.normalize, Point3.magnitude,
    Matrix.cons_val_zero, Matrix.cons_val_one, Matrix.head_cons,
    Matrix.cons_val_two, Matrix.tail_cons]
  norm_num

/-- Every supersample of every cell counts as inside for `Tdeg` on
`d8`, so the inside count is the full `27`. -/
lemma countInside_Tdeg (i j k : ℕ) : Geometry.countInside Tdeg d8 i j k = 27 := by
  have hall : ∀ s ∈ (Finset.range 3 ×ˢ Finset.range 3 ×ˢ Finset.range 3),
      Geometry.point_inside_triangle_volume
        (Geometry.samplePoint d8 i j k s.1 s.2.1 s.2.2) Tdeg d8 := by
    intro s _
    simp only [Geometry.point_inside_triangle_volume, point_triangle_distance_Tdeg, d8]
    norm_num
  simp only [Geometry.countInside]
  classical
  rw [Finset.filter_true_of_mem hall]
  simp

/-- Cell `(1,1,1)` lies in the clamped bounding box of `Tdeg` on `d8`. -/
lemma cell_in_bbox_Tdeg : (1, 1, 1) ∈ Geometry.bboxCells Tdeg d8 := by
  simp only [Geometry.bboxCells, Tdeg, d8, Geometry.clampIdx,
    Matrix.cons_val_zero, Matrix.cons_val_one, Matrix.head_cons,
    Matrix.cons_val_two, Matrix.tail_cons]
  norm_num [Finset.mem_product]

/-- Voxelizing the degenerate triangle `Tdeg` marks cell `(1,1,1)`
solid: the triangle is processed, not skipped. -/
lemma Tdeg_marks_solid :
    (1, 1, 1) ∈ (Geometry.voxelize_triangle Tdeg d8 ∅ ∅).1 := by
  simp only [Geometry.voxelize_triangle]
  classical
  rw [Finset.mem_union, Finset.mem_filter]
  right
  exact ⟨cell_in_bbox_Tdeg, by rw [countInside_Tdeg]; norm_num⟩

/-- C6: for every parse outcome and every domain with at least one
cell along x (Rust `usize` arithmetic requires `nx ≥ 1`), if `from_stl`
succeeds then no node of the `x = 0` or `x = nx-1` plane is solid,
every `(0,j,k)` is fluid and inlet, and every `(nx-1,j,k)` is fluid and
outlet — whatever the mesh marked there. -/
theorem from_stl_forces_boundary_planes
    (parsed : Except String (List (Fin 3 → Point3))) (domain : DomainConfig)
    (g : Geometry) (_hnx : 1 ≤ domain.nx)
    (hok : Geometry.from_stl parsed domain = .ok g)
    (j k : ℕ) (hj : j < domain.ny) (hk : k < domain.nz) :
    (0, j, k) ∉ g.solid_nodes ∧ (domain.nx - 1, j, k) ∉ g.solid_nodes ∧
    (0, j, k) ∈ g.fluid_nodes ∧ (0, j, k) ∈ g.inlet_nodes ∧
    (domain.nx - 1, j, k) ∈ g.fluid_nodes ∧ (domain.nx - 1, j, k) ∈ g.outlet_nodes := by
  match parsed with
  | .error e => simp [Geometry.from_stl] at hok
  | .ok faces =>
    simp only [Geometry.from_stl, Except.ok.injEq] at hok
    subst hok
    have h0 : (0, j, k) ∈ Geometry.xPlane 0 domain := by
      simp [Geometry.xPlane, Finset.mem_product, hj, hk]
    have hN : (domain.nx - 1, j, k) ∈ Geometry.xPlane (domain.nx - 1) domain := by
      simp [Geometry.xPlane, Finset.mem_product, hj, hk]
    refine ⟨?_, ?_, ?_, h0, ?_, hN⟩
    · simp [Finset.mem_sdiff, h0]
    · simp [Finset.mem_sdiff, hN]
    · simp [Finset.mem_union, h0]
    · simp [Finset.mem_union, hN]

/-- C6 witness: the boundary-plane guarantees instantiated on the
2×1×1 domain with an empty mesh. -/
theorem from_stl_forces_boundary_planes_witness :
    (1 ≤ d6.nx ∧ 0 < d6.ny ∧ 0 < d6.nz) ∧
    ((0, 0, 0) ∉ g6.solid_nodes ∧ (d6.nx - 1, 0, 0) ∉ g6.solid_nodes ∧
     (0, 0, 0) ∈ g6.fluid_nodes ∧ (0, 0, 0) ∈ g6.inlet_nodes ∧
     (d6.nx - 1, 0, 0) ∈ g6.fluid_nodes ∧ (d6.nx - 1, 0, 0) ∈ g6.outlet_nodes) := by
  have hok : Geometry.from_stl (.ok []) d6 = .ok g6 := by
    simp only [Geometry.from_stl, List.foldl_nil]
    rw [Except.ok.injEq]
    decide
  exact ⟨by decide,
    from_stl_forces_boundary_planes (.ok []) d6 g6 (by decide) hok 0 0
      (by decide) (by decide)⟩

/-- C7 counterexample: an empty triangle set is NOT rejected —
`from_stl` returns a successful classification (all cells fluid, no
solids) instead of an error, contradicting the claim that a mesh with
no triangles yields a `GeometryError`. -/
theorem from_stl_empty_mesh_succeeds :
    Geometry.from_stl (.ok []) d6 = .ok g6 := by
  simp only [Geometry.from_stl, List.foldl_nil]
  rw [Except.ok.injEq]
  decide

/-- C7 (amended): `from_stl` returns an error exactly when the file
cannot be opened or the mesh cannot be parsed (the error propagates
unchanged); a successfully parsed mesh with no triangles is accepted
and yields a classification with an empty solid set. -/
theorem from_stl_error_behavior :
    (∀ (e : String) (domain : DomainConfig),
      Geometry.from_stl (.error e) domain = .error e) ∧
    (∀ domain : DomainConfig, ∃ g : Geometry,
      Geometry.from_stl (.ok []) domain = .ok g ∧ g.solid_nodes = ∅) := by
  refine ⟨fun e domain => rfl, fun domain => ⟨_, rfl, ?_⟩⟩
  show ((∅ : Finset (ℕ × ℕ × ℕ)) \ _) \ _ = ∅
  simp

/-- C8 counterexample: the degenerate triangle `Tdeg` (zero area, so
the barycentric denominator is zero) is not skipped: the reciprocal of
its zero denominator is taken and the triangle marks cell `(1,1,1)` of
`d8` Solid. -/
theorem degenerate_triangle_claim_false :
    Geometry.baryDenom Tdeg = 0 ∧
    (1, 1, 1) ∈ (Geometry.voxelize_triangle Tdeg d8 ∅ ∅).1 := by
  refine ⟨?_, Tdeg_marks_solid⟩
  simp only [Geometry.baryDenom, Tdeg, Point3.sub, Point3.dot,
    Matrix.cons_val_zero, Matrix.cons_val_one, Matrix.head_cons,
    Matrix.cons_val_two, Matrix.tail_cons]
  norm_num

/-- C8 (amended): degenerate triangles are processed, not skipped —
every zero-area triangle (vanishing cross product of its edge vectors)
makes the barycentric denominator of `point_triangle_distance` zero,
and the division `1 / denominator` is evaluated on it anyway; such a
triangle can still mark cells Solid, as on `Tdeg`/`d8`. -/
theorem degenerate_triangles_are_processed :
    (∀ tri : Fin 3 → Point3,
      ((tri 1).sub (tri 0)).cross ((tri 2).sub (tri 0)) = ⟨0, 0, 0⟩ →
      Geometry.baryDenom tri = 0) ∧
    (1, 1, 1) ∈ (Geometry.voxelize_triangle Tdeg d8 ∅ ∅).1 := by
  refine ⟨fun tri h => ?_, Tdeg_marks_solid⟩
  set a := (tri 1).sub (tri 0) with ha
  set b := (tri 2).sub (tri 0) with hb
  have hx := congrArg Point3.x h
  have hy := congrArg Point3.y h
  have hz := congrArg Point3.z h
  simp only [Point3.cross] at hx hy hz
  have key : Geometry.baryDenom tri =
      (a.y * b.z - a.z * b.y) ^ 2 + (a.z * b.x - a.x * b.z) ^ 2 +
      (a.x * b.y - a.y * b.x) ^ 2 := by
    simp only [Geometry.baryDenom, Point3.dot, ← ha, ← hb]
    ring
  rw [key, hx, hy, hz]
  norm_num

/-- C8 witness: the general degeneracy statement applied to the
concrete collinear triangle `Tdeg`. -/
theorem degenerate_triangles_are_processed_witness :
    Geometry.baryDenom Tdeg = 0 :=
  degenerate_triangles_are_processed.1 Tdeg (by
    simp only [Tdeg, Point3.sub, Point3.cross,
      Matrix.cons_val_zero, Matrix.cons_val_one, Matrix.head_cons,
      Matrix.cons_val_two, Matrix.tail_cons]
    norm_num)

end Geometry

/-!
Solver loop (src/solver.rs).  One LBM step runs on the GPU
(`GPUContext::step`, WGSL shaders external to the embedded numerics),
so the per-step grid update is a parameter `stepf`; the lattice the
host reads back after `n` steps is `stepf^[n]` of the initial lattice.
The loop control, iteration counter, output cadence and the convergence
test are embedded from `LBMSolver::run` / `LBMSolver::check_convergence`.
-/

namespace LBMSolver

/-- The velocity magnitude `sqrt(v₀² + v₁² + v₂²)` of one node, a real
number (the only square root in the solver). -/
noncomputable def vMag (p : LatticePoint) : ℝ :=
  Real.sqrt (((p.velocity 0) ^ 2 + (p.velocity 1) ^ 2 + (p.velocity 2) ^ 2 : ℚ) : ℝ)

/-- `check_convergence`, part 1: the fold
`iter().filter(node_type == 0).map(v_mag).fold(0.0, f32::max)`. -/
noncomputable def maxFluidVelocity (lattice : List LatticePoint) : ℝ :=
  ((lattice.filter (fun p => p.node_type == 0)).map vMag).foldl max 0

/-- `check_convergence`: the maximum velocity magnitude over
Fluid-tagged nodes is below the configured tolerance. -/
def check_convergence (lattice : List LatticePoint) (tol : ℚ) : Prop :=
  maxFluidVelocity lattice < (tol : ℝ)

open Classical in
/-- The `while` loop of `LBMSolver::run`: while
`iteration < max_iterations && !converged`, perform one GPU step,
increment the counter, and at multiples of the output frequency read
back the lattice and evaluate convergence. -/
noncomputable def runLoop (stepf : List LatticePoint → List LatticePoint)
    (max_iterations output_frequency : ℕ) (tol : ℚ)
    (iteration : ℕ) (lattice : List LatticePoint) (converged : Bool) :
    ℕ × List LatticePoint × Bool :=
  if h : iteration < max_iterations ∧ converged = false then
    -- body: one GPU step (`stepf lattice`), `iteration + 1`, and —
    -- only when `(iteration + 1) % output_frequency == 0` — a readback
    -- and convergence evaluation on the stepped lattice
    runLoop stepf max_iterations output_frequency tol (iteration + 1)
      (stepf lattice)
      (if (iteration + 1) % output_frequency = 0
        then decide (check_convergence (stepf lattice) tol) else converged)
  else (iteration, lattice, converged)
termination_by max_iterations - iteration
decreasing_by
  have := h.1
  omega

/-- `LBMSolver::run` from a freshly initialized solver: the iteration
counter starts at 0 and `converged` at `false` (the initial
`write_output` call does not alter the loop state). -/
noncomputable def run (stepf : List LatticePoint → List LatticePoint)
    (max_iterations output_frequency : ℕ) (tol : ℚ)
    (lattice : List LatticePoint) : ℕ × List LatticePoint × Bool :=
  runLoop stepf max_iterations output_frequency tol 0 lattice false

-- Loop invariant of `runLoop`, by induction on the remaining fuel
-- `maxIter - it`: the result lattice is the iterated step of the
-- initial one, the counter never passes `max_iterations`, a loop
-- entered with `converged = true` exits immediately, and the exit flag
-- records exactly whether some output-interval checkpoint converged —
-- the earliest one when it did, none up to `max_iterations` when not.
lemma runLoop_spec (stepf : List LatticePoint → List LatticePoint)
    (maxIter freq : ℕ) (tol : ℚ) (l0 : List LatticePoint) :
    ∀ (fuel it : ℕ) (c : Bool) (r : ℕ × List LatticePoint × Bool),
      maxIter - it ≤ fuel → it ≤ maxIter →
      r = runLoop stepf maxIter freq tol it (stepf^[it] l0) c →
      r.2.1 = stepf^[r.1] l0 ∧ it ≤ r.1 ∧ r.1 ≤ maxIter ∧
      (c = true → r = (it, stepf^[it] l0, true)) ∧
      (r.2.2 = true → c = false →
        r.1 % freq = 0 ∧ check_convergence (stepf^[r.1] l0) tol ∧
        ∀ m, it < m → m < r.1 → m % freq = 0 →
          ¬ check_convergence (stepf^[m] l0) tol) ∧
      (r.2.2 = false →
        r.1 = maxIter ∧
        ∀ m, it < m → m ≤ maxIter → m % freq = 0 →
          ¬ check_convergence (stepf^[m] l0) tol) := by
  classical
  intro fuel
  induction fuel with
  | zero =>
    intro it c r hfuel hit hr
    have heq : it = maxIter := by omega
    rw [runLoop, dif_neg (by omega)] at hr
    subst hr
    refine ⟨rfl, le_refl _, hit, ?_, ?_, ?_⟩
    · intro hc; rw [hc]
    · intro h1 h2; rw [h2] at h1; simp at h1
    · intro _; exact ⟨heq, fun m hm1 hm2 _ => by omega⟩
  | succ n ih =>
    intro it c r hfuel hit hr
    by_cases hlt : it < maxIter ∧ c = false
    · rw [runLoop, dif_pos hlt] at hr
      have hcf : c = false := hlt.2
      have H := ih (it + 1)
        (if (it + 1) % freq = 0
          then decide (check_convergence (stepf^[it + 1] l0) tol) else c)
        r (by omega) (by omega)
        (by rw [Function.iterate_succ_apply']; exact hr)
      obtain ⟨H1, H2, H3, H4, H5, H6⟩ := H
      refine ⟨H1, by omega, H3, ?_, ?_, ?_⟩
      · intro hc; rw [hc] at hcf; cases hcf
      · intro hr2 _
        by_cases hm : (it + 1) % freq = 0
        · by_cases hp : check_convergence (stepf^[it + 1] l0) tol
          · have hc' := H4 (by rw [if_pos hm, decide_eq_true_eq]; exact hp)
            have hr1 : r.1 = it + 1 := by rw [hc']
            refine ⟨by rw [hr1]; exact hm, by rw [hr1]; exact hp, ?_⟩
            intro m hm1 hm2 _
            rw [hr1] at hm2; omega
          · have H5' := H5 hr2 (by rw [if_pos hm]; exact decide_eq_false hp)
            refine ⟨H5'.1, H5'.2.1, ?_⟩
            intro m hm1 hm2 hmf
            rcases Nat.lt_or_ge (it + 1) m with h | h
            · exact H5'.2.2 m h hm2 hmf
            · have hme : m = it + 1 := by omega
              rw [hme]; exact hp
        · have H5' := H5 hr2 (by rw [if_neg hm]; exact hcf)
          refine ⟨H5'.1, H5'.2.1, ?_⟩
          intro m hm1 hm2 hmf
          rcases Nat.lt_or_ge (it + 1) m with h | h
          · exact H5'.2.2 m h hm2 hmf
          · have hme : m = it + 1 := by omega
            rw [hme] at hmf; exact absurd hmf hm
      · intro hr2
        have H6' := H6 hr2
        refine ⟨H6'.1, ?_⟩
        intro m hm1 hm2 hmf
        rcases Nat.lt_or_ge (it + 1) m with h | h
        · exact H6'.2 m h hm2 hmf
        · have hme : m = it + 1 := by omega
          by_cases hp : check_convergence (stepf^[it + 1] l0) tol
          · have hmm : (it + 1) % freq = 0 := by rw [← hme]; exact hmf
            have hc' := H4 (by rw [if_pos hmm, decide_eq_true_eq]; exact hp)
            rw [hc'] at hr2; simp at hr2
          · rw [hme]; exact hp
    · rw [runLoop, dif_neg hlt] at hr
      subst hr
      refine ⟨rfl, le_refl _, hit, ?_, ?_, ?_⟩
      · intro hc; rw [hc]
      · intro h1 h2; rw [h2] at h1; simp at h1
      · intro hc
        have hnlt : ¬ it < maxIter := by
          intro hl; simp at hc; exact hlt ⟨hl, hc⟩
        exact ⟨by omega, fun m hm1 hm2 _ => by omega⟩

/-- C9: the solver loop stops on the first of convergence or the
counter reaching `max_iterations` (for a valid positive output
frequency; a zero frequency panics in the source at `iteration % 0`).
The final lattice is the step function iterated final-count times; the
counter never exceeds `max_iterations`; if the loop reports
convergence, it stopped at a multiple of the output frequency whose
read-back lattice has maximum Fluid-node velocity magnitude below the
tolerance, and no earlier output-interval checkpoint satisfied that
test (it is evaluated only at those checkpoints); if it does not
report convergence, it ran exactly `max_iterations` iterations and no
checkpoint up to there converged. -/
theorem run_stops_on_first_convergence_or_max
    (stepf : List LatticePoint → List LatticePoint)
    (maxIter freq : ℕ) (tol : ℚ) (l0 : List LatticePoint)
    (_hfreq : 0 < freq) :
    (run stepf maxIter freq tol l0).2.1 =
      stepf^[(run stepf maxIter freq tol l0).1] l0 ∧
    (run stepf maxIter freq tol l0).1 ≤ maxIter ∧
    ((run stepf maxIter freq tol l0).2.2 = true →
      (run stepf maxIter freq tol l0).1 % freq = 0 ∧
      check_convergence (stepf^[(run stepf maxIter freq tol l0).1] l0) tol ∧
      ∀ m, 0 < m → m < (run stepf maxIter freq tol l0).1 → m % freq = 0 →
        ¬ check_convergence (stepf^[m] l0) tol) ∧
    ((run stepf maxIter freq tol l0).2.2 = false →
      (run stepf maxIter freq tol l0).1 = maxIter ∧
      ∀ m, 0 < m → m ≤ maxIter → m % freq = 0 →
        ¬ check_convergence (stepf^[m] l0) tol) := by
  have H := runLoop_spec stepf maxIter freq tol l0 maxIter 0 false
    (run stepf maxIter freq tol l0) (by omega) (by omega)
    (by rw [run, Function.iterate_zero_apply])
  obtain ⟨H1, _, H3, _, H5, H6⟩ := H
  exact ⟨H1, H3, fun h => H5 h rfl, H6⟩

/-- C9 witness: the loop characterization applied to the identity step
on an empty lattice with `max_iterations = 2`, frequency 1, tolerance 1. -/
theorem run_stops_witness :
    (run id 2 1 1 []).1 ≤ 2 ∧
    (run id 2 1 1 []).2.1 = id^[(run id 2 1 1 []).1] ([] : List LatticePoint) :=
  ⟨(run_stops_on_first_convergence_or_max id 2 1 1 [] (by decide)).2.1,
   (run_stops_on_first_convergence_or_max id 2 1 1 [] (by decide)).1⟩

end LBMSolver

end LBM
